import Mathlib

/-!
Verification of the Kubernetes deployment helper in
`go/metaparticle/kubernetes_impl.go` (package metaparticle).

The remote Kubernetes API server is modelled as an explicit store of
Deployments and Services keyed by (namespace, name), plus a schedule of
injected outcomes that lets any remote call fail with an arbitrary error
(the Go code branches on `k8serrors.IsNotFound`, which our error type
mirrors).  Pod listing is an oracle: the platform, not this code, decides
which pods exist, so each successive pod-list query is answered by an
environment function `pods : Nat → PodsResponse`.  Every remote call made
is recorded in a trace, so ordering and absence-of-call claims are
statements about that trace.  The unbounded readiness-poll loop is run
with explicit fuel; exhausting the fuel yields `none` ("still waiting"),
never a result, matching the loop's unconditional-block semantics.
-/

set_option autoImplicit false

namespace Metaparticle

/-- The `Runtime` configuration struct of the metaparticle package; the
Kubernetes executor reads only `Replicas`, `Ports` and `PublicAddress`
(Go `int32` values are modelled as `Int`). -/
structure Runtime where
  Executor : String := ""
  Replicas : Int := 0
  Ports : List Int := []
  PublicAddress : Bool := false
  deriving DecidableEq

/-- `KubernetesExecuterConfig` from kubernetes_impl.go lines 26-28: a
`Namespace` field.  No function of the file ever reads it. -/
structure KubernetesExecuterConfig where
  Namespace : String := ""
  deriving DecidableEq

/-- A container port of the pod template (`v1.ContainerPort`). -/
structure ContainerPort where
  ContainerPort : Int
  deriving DecidableEq

/-- A container of the pod template (`v1.Container`). -/
structure Container where
  Name : String
  Image : String
  Ports : List ContainerPort
  deriving DecidableEq

/-- The parts of `appsv1.Deployment` that createDeployment fills in. -/
structure Deployment where
  Name : String
  Namespace : String
  Labels : List (String × String)
  Replicas : Int
  SelectorMatchLabels : List (String × String)
  TemplateLabels : List (String × String)
  Containers : List Container
  deriving DecidableEq

/-- A `v1.ServicePort` as assembled by createService. -/
structure ServicePort where
  Name : String
  Port : Int
  TargetPort : Int
  Protocol : String
  deriving DecidableEq

/-- The parts of `v1.Service` that createService fills in.  `Type` is the
zero value `""` (cluster-internal default) unless set to LoadBalancer. -/
structure Service where
  Name : String
  Namespace : String
  Labels : List (String × String)
  Ports : List ServicePort
  Selector : List (String × String)
  ServiceType : String
  deriving DecidableEq

/-- One entry of `pod.Status.ContainerStatuses`; `Running` models whether
`State.Running != nil`. -/
structure ContainerStatus where
  Running : Bool
  deriving DecidableEq

/-- The parts of `v1.Pod` that findPod and Logs read. -/
structure Pod where
  Name : String
  Namespace : String
  ContainerStatuses : List ContainerStatus
  deriving DecidableEq

/-- An error from the remote API.  `IsNotFound` of the Go k8serrors
package is true exactly for `notFound` and for `injected true code`. -/
inductive K8sErr where
  | notFound
  | alreadyExists
  | injected (nf : Bool) (code : Nat)
  deriving DecidableEq

/-- Mirror of `k8serrors.IsNotFound`. -/
def K8sErr.IsNotFound : K8sErr → Bool
  | .notFound => true
  | .alreadyExists => false
  | .injected nf _ => nf

/-- Errors returned by the metaparticle functions: the package-level
sentinel errors plus remote API errors and raw I/O errors. -/
inductive MPError where
  | errEmptyImageName
  | errEmptyContainerName
  | errNilRuntimeConfig
  | errNoRunningContainer
  | api (e : K8sErr)
  | ioErr (code : Nat)
  deriving DecidableEq

/-- One remote call (or local sleep / stream close) made by the code, in
order.  CRUD calls carry the namespace they target. -/
inductive Call where
  | deploymentsGet (ns nm : String)
  | deploymentsCreate (ns : String) (d : Deployment)
  | deploymentsUpdate (ns : String) (d : Deployment)
  | deploymentsDelete (ns nm : String)
  | servicesGet (ns nm : String)
  | servicesCreate (ns : String) (s : Service)
  | servicesDelete (ns nm : String)
  | podsList (ns sel : String) (lim : Nat)
  | getLogs (ns nm : String) (follow : Bool)
  | sleep (seconds : Nat)
  | closeStream
  deriving DecidableEq

/-- Is this one of the Service CRUD calls? -/
def Call.isServiceCall : Call → Bool
  | .servicesGet _ _ => true
  | .servicesCreate _ _ => true
  | .servicesDelete _ _ => true
  | _ => false

/-- Is this one of the Deployment CRUD calls? -/
def Call.isDeploymentCall : Call → Bool
  | .deploymentsGet _ _ => true
  | .deploymentsCreate _ _ => true
  | .deploymentsUpdate _ _ => true
  | .deploymentsDelete _ _ => true
  | _ => false

/-- Is this a sleep between readiness-poll retries? -/
def Call.isSleep : Call → Bool
  | .sleep _ => true
  | _ => false

/-- The namespace a Deployment/Service CRUD or pod-list call targets
(`none` for log streaming, sleeping and stream close). -/
def Call.crudNs : Call → Option String
  | .deploymentsGet ns _ => some ns
  | .deploymentsCreate ns _ => some ns
  | .deploymentsUpdate ns _ => some ns
  | .deploymentsDelete ns _ => some ns
  | .servicesGet ns _ => some ns
  | .servicesCreate ns _ => some ns
  | .servicesDelete ns _ => some ns
  | .podsList ns _ _ => some ns
  | _ => none

/-- Association-list lookup keyed by (namespace, name). -/
def alistGet {α : Type} (l : List ((String × String) × α)) (k : String × String) : Option α :=
  (l.find? (fun e => e.1 = k)).map (fun e => e.2)

/-- Insert-or-replace keyed by (namespace, name). -/
def alistPut {α : Type} (l : List ((String × String) × α)) (k : String × String) (a : α) :
    List ((String × String) × α) :=
  (k, a) :: l.filter (fun e => ¬ e.1 = k)

/-- Remove the entry with the given key, if present. -/
def alistDel {α : Type} (l : List ((String × String) × α)) (k : String × String) :
    List ((String × String) × α) :=
  l.filter (fun e => ¬ e.1 = k)

/-- The persisted state of the API server: Deployments and Services. -/
structure Cluster where
  deployments : List ((String × String) × Deployment)
  services : List ((String × String) × Service)
  deriving DecidableEq

/-- An injected outcome for one remote CRUD call: `none` means the call
behaves per the store semantics; `some (nf, code)` makes it fail with an
error whose `IsNotFound` equals `nf`. -/
abbrev Outcome := Option (Bool × Nat)

/-- Pop the next outcome from the schedule (store semantics once the
schedule is exhausted). -/
def takeOutcome : List Outcome → Outcome × List Outcome
  | [] => (none, [])
  | o :: rest => (o, rest)

/-- The threaded state of a sequence of remote calls: the cluster store,
the remaining injected-outcome schedule, and the trace so far. -/
structure ApiState where
  cluster : Cluster
  sched : List Outcome
  trace : List Call
  deriving DecidableEq

/-- `Deployments(ns).Get(nm)`: returns the stored object or NotFound. -/
def apiGetDeployment (s : ApiState) (ns nm : String) : Except K8sErr Deployment × ApiState :=
  let (o, rest) := takeOutcome s.sched
  let s1 : ApiState :=
    { s with sched := rest, trace := s.trace ++ [Call.deploymentsGet ns nm] }
  match o with
  | some (nf, code) => (.error (.injected nf code), s1)
  | none =>
    match alistGet s1.cluster.deployments (ns, nm) with
    | some d => (.ok d, s1)
    | none => (.error .notFound, s1)

/-- `Deployments(ns).Create(d)`: inserts the object, AlreadyExists if present. -/
def apiCreateDeployment (s : ApiState) (ns : String) (d : Deployment) :
    Except K8sErr Deployment × ApiState :=
  let (o, rest) := takeOutcome s.sched
  let s1 : ApiState :=
    { s with sched := rest, trace := s.trace ++ [Call.deploymentsCreate ns d] }
  match o with
  | some (nf, code) => (.error (.injected nf code), s1)
  | none =>
    match alistGet s1.cluster.deployments (ns, d.Name) with
    | some _ => (.error .alreadyExists, s1)
    | none =>
      (.ok d, { s1 with cluster :=
        { s1.cluster with deployments := alistPut s1.cluster.deployments (ns, d.Name) d } })

/-- `Deployments(ns).Update(d)`: replaces the stored object wholesale. -/
def apiUpdateDeployment (s : ApiState) (ns : String) (d : Deployment) :
    Except K8sErr Deployment × ApiState :=
  let (o, rest) := takeOutcome s.sched
  let s1 : ApiState :=
    { s with sched := rest, trace := s.trace ++ [Call.deploymentsUpdate ns d] }
  match o with
  | some (nf, code) => (.error (.injected nf code), s1)
  | none =>
    match alistGet s1.cluster.deployments (ns, d.Name) with
    | none => (.error .notFound, s1)
    | some _ =>
      (.ok d, { s1 with cluster :=
        { s1.cluster with deployments := alistPut s1.cluster.deployments (ns, d.Name) d } })

/-- `Deployments(ns).Delete(nm)`: removes the object, NotFound if absent. -/
def apiDeleteDeployment (s : ApiState) (ns nm : String) : Except K8sErr Unit × ApiState :=
  let (o, rest) := takeOutcome s.sched
  let s1 : ApiState :=
    { s with sched := rest, trace := s.trace ++ [Call.deploymentsDelete ns nm] }
  match o with
  | some (nf, code) => (.error (.injected nf code), s1)
  | none =>
    match alistGet s1.cluster.deployments (ns, nm) with
    | none => (.error .notFound, s1)
    | some _ =>
      (.ok (), { s1 with cluster :=
        { s1.cluster with deployments := alistDel s1.cluster.deployments (ns, nm) } })

/-- `Services(ns).Get(nm)`. -/
def apiGetService (s : ApiState) (ns nm : String) : Except K8sErr Service × ApiState :=
  let (o, rest) := takeOutcome s.sched
  let s1 : ApiState :=
    { s with sched := rest, trace := s.trace ++ [Call.servicesGet ns nm] }
  match o with
  | some (nf, code) => (.error (.injected nf code), s1)
  | none =>
    match alistGet s1.cluster.services (ns, nm) with
    | some v => (.ok v, s1)
    | none => (.error .notFound, s1)

/-- `Services(ns).Create(v)`. -/
def apiCreateService (s : ApiState) (ns : String) (v : Service) :
    Except K8sErr Service × ApiState :=
  let (o, rest) := takeOutcome s.sched
  let s1 : ApiState :=
    { s with sched := rest, trace := s.trace ++ [Call.servicesCreate ns v] }
  match o with
  | some (nf, code) => (.error (.injected nf code), s1)
  | none =>
    match alistGet s1.cluster.services (ns, v.Name) with
    | some _ => (.error .alreadyExists, s1)
    | none =>
      (.ok v, { s1 with cluster :=
        { s1.cluster with services := alistPut s1.cluster.services (ns, v.Name) v } })

/-- `Services(ns).Delete(nm)`. -/
def apiDeleteService (s : ApiState) (ns nm : String) : Except K8sErr Unit × ApiState :=
  let (o, rest) := takeOutcome s.sched
  let s1 : ApiState :=
    { s with sched := rest, trace := s.trace ++ [Call.servicesDelete ns nm] }
  match o with
  | some (nf, code) => (.error (.injected nf code), s1)
  | none =>
    match alistGet s1.cluster.services (ns, nm) with
    | none => (.error .notFound, s1)
    | some _ =>
      (.ok (), { s1 with cluster :=
        { s1.cluster with services := alistDel s1.cluster.services (ns, nm) } })

/-- The Deployment object assembled by createDeployment
(kubernetes_impl.go lines 116-156): namespace "default", label and
selector `app=name`, replicas from the config, one container with the
image and one ContainerPort per config port. -/
def mkDeployment (image nm : String) (config : Runtime) : Deployment :=
  { Name := nm
    Namespace := "default"
    Labels := [("app", nm)]
    Replicas := config.Replicas
    SelectorMatchLabels := [("app", nm)]
    TemplateLabels := [("app", nm)]
    Containers := [{ Name := nm, Image := image,
                     Ports := config.Ports.map (fun p => { ContainerPort := p }) }] }

/-- The ServicePort list built by the `for i, port := range config.Ports`
loop of createService: each port named by its ordinal index, port and
target port equal, protocol TCP. -/
def mkServicePorts : Nat → List Int → List ServicePort
  | _, [] => []
  | i, p :: rest =>
    { Name := toString i, Port := p, TargetPort := p, Protocol := "TCP" }
      :: mkServicePorts (i + 1) rest

/-- The Service object assembled by createService (lines 194-221):
namespace "default", selector `app=name`, LoadBalancer type exactly when
PublicAddress is set (otherwise the zero value, cluster-internal). -/
def mkService (nm : String) (config : Runtime) : Service :=
  { Name := nm
    Namespace := "default"
    Labels := [("app", nm)]
    Ports := mkServicePorts 0 config.Ports
    Selector := [("app", nm)]
    ServiceType := if config.PublicAddress then "LoadBalancer" else "" }

/-- The platform's answer to one `Pods("default").List` query: either an
error or the item list the server returned. -/
inductive PodsResponse where
  | err (e : K8sErr)
  | ok (items : List Pod)
  deriving DecidableEq

/-- The selection loop of findPod (lines 261-270): skip pods with no
container statuses, take the first whose first container status reports
Running. -/
def selectRunning (items : List Pod) : Option Pod :=
  items.find? (fun p =>
    match p.ContainerStatuses with
    | [] => false
    | st :: _ => st.Running)

/-- The pod-list call findPod issues: namespace "default", label
selector `app=<name>`, limit 1. -/
def podsListCall (nm : String) : Call :=
  Call.podsList "default" ("app=" ++ nm) 1

/-- findPod (lines 246-275), given the platform's response to its single
list query: empty name is rejected, a list error is propagated, an empty
item list or no running pod yields errNoRunningContainer. -/
def findPod (resp : PodsResponse) (nm : String) : Except MPError Pod :=
  if nm = "" then .error .errEmptyContainerName
  else
    match resp with
    | .err e => .error (.api e)
    | .ok items =>
      if items = [] then .error .errNoRunningContainer
      else
        match selectRunning items with
        | some p => .ok p
        | none => .error .errNoRunningContainer

/-- The readiness loop of createDeployment (lines 178-190), answering the
i-th pod query from `pods i` and run with explicit fuel.  The error of
each findPod call is discarded (`pod, _ := k.findPod(name)`): any
failure means "pod is not running", sleep 1 second and retry.  Returns
the index of the query that saw a running pod (`none` when the fuel ran
out with the loop still spinning) together with the calls made. -/
def waitLoop (pods : Nat → PodsResponse) (nm : String) : Nat → Nat → Option Nat × List Call
  | _, 0 => (none, [])
  | i, fuel + 1 =>
    match findPod (pods i) nm with
    | .ok _ => (some i, [podsListCall nm])
    | .error _ =>
      let (r, tr) := waitLoop pods nm (i + 1) fuel
      (r, podsListCall nm :: Call.sleep 1 :: tr)

/-- createService (lines 194-244): assemble the Service, look it up by
name; a non-NotFound lookup error is returned; NotFound leads to a
Create whose error is returned; an existing Service is left alone (the
update is commented out in the source). -/
def createService (s : ApiState) (image nm : String) (config : Runtime) :
    Except MPError Unit × ApiState :=
  let service := mkService nm config
  let (r, s1) := apiGetService s service.Namespace service.Name
  match r with
  | .error e =>
    if e.IsNotFound then
      let (r2, s2) := apiCreateService s1 service.Namespace service
      match r2 with
      | .error e2 => (.error (.api e2), s2)
      | .ok _ => (.ok (), s2)
    else (.error (.api e), s1)
  | .ok _ => (.ok (), s1)

/-- createDeployment (lines 116-192): assemble the Deployment, look it
up by name; a non-NotFound lookup error is returned; NotFound leads to a
Create, an existing Deployment to a full Update; then, when `wait` is
set, the readiness loop runs.  The result is `none` while the loop is
still spinning (fuel exhausted without a running pod). -/
def createDeployment (pods : Nat → PodsResponse) (fuel : Nat) (s : ApiState)
    (image nm : String) (config : Runtime) (wait : Bool) :
    Option (Except MPError Unit) × ApiState :=
  let deployment := mkDeployment image nm config
  let (r, s1) := apiGetDeployment s deployment.Namespace deployment.Name
  let afterCrud : Except MPError Unit × ApiState :=
    match r with
    | .error e =>
      if e.IsNotFound then
        let (r2, s2) := apiCreateDeployment s1 deployment.Namespace deployment
        match r2 with
        | .error e2 => (.error (.api e2), s2)
        | .ok _ => (.ok (), s2)
      else (.error (.api e), s1)
    | .ok _ =>
      let (r2, s2) := apiUpdateDeployment s1 deployment.Namespace deployment
      match r2 with
      | .error e2 => (.error (.api e2), s2)
      | .ok _ => (.ok (), s2)
  match afterCrud with
  | (.error e, s2) => (some (.error e), s2)
  | (.ok _, s2) =>
    if wait then
      let (res, tr) := waitLoop pods nm 0 fuel
      (res.map (fun _ => .ok ()), { s2 with trace := s2.trace ++ tr })
    else (some (.ok ()), s2)

instance {e a : Type} [DecidableEq e] [DecidableEq a] : DecidableEq (Except e a) := fun x y =>
  match x, y with
  | .error u, .error v => decidable_of_iff (u = v) (by simp)
  | .error _, .ok _ => isFalse (fun h => Except.noConfusion h)
  | .ok _, .error _ => isFalse (fun h => Except.noConfusion h)
  | .ok u, .ok v => decidable_of_iff (u = v) (by simp)

/-- The outcome of a Run: its result (`none` while the readiness loop is
still spinning), the cluster state afterwards, and the remote calls
made, in order. -/
structure RunOut where
  result : Option (Except MPError Unit)
  cluster : Cluster
  trace : List Call
  deriving DecidableEq

/-- Run (lines 89-114): validate image, name and config in that order
(failing fast with no remote call), create the Service when Ports is
non-empty, then create the Deployment with wait=true. -/
def Run (st : Cluster) (sched : List Outcome) (pods : Nat → PodsResponse) (fuel : Nat)
    (image nm : String) (config : Option Runtime) : RunOut :=
  if image = "" then ⟨some (.error .errEmptyImageName), st, []⟩
  else if nm = "" then ⟨some (.error .errEmptyContainerName), st, []⟩
  else
    match config with
    | none => ⟨some (.error .errNilRuntimeConfig), st, []⟩
    | some cfg =>
      let s0 : ApiState := ⟨st, sched, []⟩
      let afterSvc : Except MPError Unit × ApiState :=
        if cfg.Ports.length ≠ 0 then createService s0 image nm cfg else (.ok (), s0)
      match afterSvc with
      | (.error e, s1) => ⟨some (.error e), s1.cluster, s1.trace⟩
      | (.ok _, s1) =>
        let (res, s2) := createDeployment pods fuel s1 image nm cfg true
        ⟨res, s2.cluster, s2.trace⟩

/-- Cancel (lines 300-319): empty name is rejected with no remote call;
then the Service named name is deleted, NotFound tolerated, other errors
returned; then likewise the Deployment. -/
def Cancel (st : Cluster) (sched : List Outcome) (nm : String) :
    Except MPError Unit × Cluster × List Call :=
  if nm = "" then (.error .errEmptyContainerName, st, [])
  else
    let s0 : ApiState := ⟨st, sched, []⟩
    let (r1, s1) := apiDeleteService s0 "default" nm
    let afterSvc : Option MPError :=
      match r1 with
      | .error e => if e.IsNotFound then none else some (.api e)
      | .ok _ => none
    match afterSvc with
    | some e => (.error e, s1.cluster, s1.trace)
    | none =>
      let (r2, s2) := apiDeleteDeployment s1 "default" nm
      match r2 with
      | .error e => if e.IsNotFound then (.ok (), s2.cluster, s2.trace)
                    else (.error (.api e), s2.cluster, s2.trace)
      | .ok _ => (.ok (), s2.cluster, s2.trace)

/-- The environment of one Logs call: the platform's answer to the pod
query, whether opening the log stream fails, and the outcome of copying
the stream to stdout (bytes copied, or an I/O error code). -/
structure LogsEnv where
  podsResp : PodsResponse
  streamErr : Option K8sErr
  copyRes : Except Nat Nat
  deriving DecidableEq

/-- Logs (lines 278-297): find a running pod (errors propagated), open a
follow-mode log stream for it in its namespace (open errors propagated,
no stream to close), then copy to stdout; the deferred Close runs on
both the success and the error exit of the copy. -/
def Logs (env : LogsEnv) (nm : String) : Except MPError Unit × List Call :=
  match findPod env.podsResp nm with
  | .error e => (.error e, if nm = "" then [] else [podsListCall nm])
  | .ok selectedPod =>
    let tr := [podsListCall nm, Call.getLogs selectedPod.Namespace selectedPod.Name true]
    match env.streamErr with
    | some e => (.error (.api e), tr)
    | none =>
      match env.copyRes with
      | .ok _ => (.ok (), tr ++ [Call.closeStream])
      | .error code => (.error (.ioErr code), tr ++ [Call.closeStream])

/-- A pod-list oracle that reports a running pod at once: used to drive
the readiness loop to immediate success in state-shape theorems. -/
def instantPods (nm : String) : Nat → PodsResponse :=
  fun _ => .ok [{ Name := nm ++ "-pod", Namespace := "default",
                  ContainerStatuses := [{ Running := true }] }]

/-- Running in the presence of a `KubernetesExecuterConfig`: the source
declares the struct (lines 26-28) but no function ever stores or reads
it, so an executor "configured" with any value just runs `Run`. -/
def RunWithConfig (cfgK : KubernetesExecuterConfig) (st : Cluster) (sched : List Outcome)
    (pods : Nat → PodsResponse) (fuel : Nat) (image nm : String)
    (config : Option Runtime) : RunOut :=
  Run st sched pods fuel image nm config

/-! ### Helper lemmas about the store and the API operations -/

theorem alistGet_put_self {α : Type} (l : List ((String × String) × α)) (k : String × String)
    (a : α) : alistGet (alistPut l k a) k = some a := by
  simp [alistGet, alistPut]

theorem takeOutcome_nil_snd : (takeOutcome []).2 = [] := rfl

theorem apiGetDeployment_snd (s : ApiState) (ns nm : String) :
    (apiGetDeployment s ns nm).2 =
      { s with sched := (takeOutcome s.sched).2,
               trace := s.trace ++ [Call.deploymentsGet ns nm] } := by
  rcases hs : s.sched with _ | ⟨o, rest⟩
  · simp only [apiGetDeployment, takeOutcome, hs]
    rcases alistGet s.cluster.deployments (ns, nm) <;> simp [takeOutcome]
  · rcases o with _ | ⟨nf, code⟩
    · simp only [apiGetDeployment, takeOutcome, hs]
      rcases alistGet s.cluster.deployments (ns, nm) <;> simp [takeOutcome]
    · simp [apiGetDeployment, takeOutcome, hs]

theorem apiGetDeployment_fst_store (s : ApiState) (ns nm : String) (h : s.sched = []) :
    (apiGetDeployment s ns nm).1 =
      (match alistGet s.cluster.deployments (ns, nm) with
       | some d => .ok d
       | none => .error .notFound) := by
  simp only [apiGetDeployment, takeOutcome, h]
  rcases alistGet s.cluster.deployments (ns, nm) <;> simp

theorem apiGetDeployment_fst_inj (s : ApiState) (ns nm : String) (nf : Bool) (code : Nat)
    (rest : List Outcome) (h : s.sched = some (nf, code) :: rest) :
    (apiGetDeployment s ns nm).1 = .error (.injected nf code) := by
  simp [apiGetDeployment, takeOutcome, h]

theorem apiGetService_snd (s : ApiState) (ns nm : String) :
    (apiGetService s ns nm).2 =
      { s with sched := (takeOutcome s.sched).2,
               trace := s.trace ++ [Call.servicesGet ns nm] } := by
  rcases hs : s.sched with _ | ⟨o, rest⟩
  · simp only [apiGetService, takeOutcome, hs]
    rcases alistGet s.cluster.services (ns, nm) <;> simp [takeOutcome]
  · rcases o with _ | ⟨nf, code⟩
    · simp only [apiGetService, takeOutcome, hs]
      rcases alistGet s.cluster.services (ns, nm) <;> simp [takeOutcome]
    · simp [apiGetService, takeOutcome, hs]

theorem apiGetService_fst_store (s : ApiState) (ns nm : String) (h : s.sched = []) :
    (apiGetService s ns nm).1 =
      (match alistGet s.cluster.services (ns, nm) with
       | some v => .ok v
       | none => .error .notFound) := by
  simp only [apiGetService, takeOutcome, h]
  rcases alistGet s.cluster.services (ns, nm) <;> simp

theorem apiCreateDeployment_store_absent (s : ApiState) (ns : String) (d : Deployment)
    (h : s.sched = []) (ha : alistGet s.cluster.deployments (ns, d.Name) = none) :
    apiCreateDeployment s ns d =
      (.ok d,
       { cluster := { deployments := alistPut s.cluster.deployments (ns, d.Name) d,
                      services := s.cluster.services },
         sched := [],
         trace := s.trace ++ [Call.deploymentsCreate ns d] }) := by
  simp [apiCreateDeployment, takeOutcome, h, ha]

theorem apiUpdateDeployment_store_present (s : ApiState) (ns : String) (d d0 : Deployment)
    (h : s.sched = []) (ha : alistGet s.cluster.deployments (ns, d.Name) = some d0) :
    apiUpdateDeployment s ns d =
      (.ok d,
       { cluster := { deployments := alistPut s.cluster.deployments (ns, d.Name) d,
                      services := s.cluster.services },
         sched := [],
         trace := s.trace ++ [Call.deploymentsUpdate ns d] }) := by
  simp [apiUpdateDeployment, takeOutcome, h, ha]

theorem apiCreateService_store_absent (s : ApiState) (ns : String) (v : Service)
    (h : s.sched = []) (ha : alistGet s.cluster.services (ns, v.Name) = none) :
    apiCreateService s ns v =
      (.ok v,
       { cluster := { deployments := s.cluster.deployments,
                      services := alistPut s.cluster.services (ns, v.Name) v },
         sched := [],
         trace := s.trace ++ [Call.servicesCreate ns v] }) := by
  simp [apiCreateService, takeOutcome, h, ha]

theorem apiDeleteService_store_absent (s : ApiState) (ns nm : String)
    (h : s.sched = []) (ha : alistGet s.cluster.services (ns, nm) = none) :
    apiDeleteService s ns nm =
      (.error .notFound,
       { s with sched := [], trace := s.trace ++ [Call.servicesDelete ns nm] }) := by
  simp [apiDeleteService, takeOutcome, h, ha]

theorem apiDeleteService_store_present (s : ApiState) (ns nm : String) (v : Service)
    (h : s.sched = []) (ha : alistGet s.cluster.services (ns, nm) = some v) :
    apiDeleteService s ns nm =
      (.ok (),
       { cluster := { deployments := s.cluster.deployments,
                      services := alistDel s.cluster.services (ns, nm) },
         sched := [],
         trace := s.trace ++ [Call.servicesDelete ns nm] }) := by
  simp [apiDeleteService, takeOutcome, h, ha]

theorem apiDeleteService_inj (s : ApiState) (ns nm : String) (nf : Bool) (code : Nat)
    (rest : List Outcome) (h : s.sched = some (nf, code) :: rest) :
    apiDeleteService s ns nm =
      (.error (.injected nf code),
       { s with sched := rest, trace := s.trace ++ [Call.servicesDelete ns nm] }) := by
  simp [apiDeleteService, takeOutcome, h]

theorem apiDeleteDeployment_store_absent (s : ApiState) (ns nm : String)
    (h : s.sched = []) (ha : alistGet s.cluster.deployments (ns, nm) = none) :
    apiDeleteDeployment s ns nm =
      (.error .notFound,
       { s with sched := [], trace := s.trace ++ [Call.deploymentsDelete ns nm] }) := by
  simp [apiDeleteDeployment, takeOutcome, h, ha]

theorem apiDeleteDeployment_store_present (s : ApiState) (ns nm : String) (d : Deployment)
    (h : s.sched = []) (ha : alistGet s.cluster.deployments (ns, nm) = some d) :
    apiDeleteDeployment s ns nm =
      (.ok (),
       { cluster := { deployments := alistDel s.cluster.deployments (ns, nm),
                      services := s.cluster.services },
         sched := [],
         trace := s.trace ++ [Call.deploymentsDelete ns nm] }) := by
  simp [apiDeleteDeployment, takeOutcome, h, ha]

theorem apiDeleteDeployment_inj (s : ApiState) (ns nm : String) (nf : Bool) (code : Nat)
    (rest : List Outcome) (h : s.sched = some (nf, code) :: rest) :
    apiDeleteDeployment s ns nm =
      (.error (.injected nf code),
       { s with sched := rest, trace := s.trace ++ [Call.deploymentsDelete ns nm] }) := by
  simp [apiDeleteDeployment, takeOutcome, h]

theorem apiCreateService_snd_trace (s : ApiState) (ns : String) (v : Service) :
    (apiCreateService s ns v).2.trace = s.trace ++ [Call.servicesCreate ns v] := by
  rcases hs : s.sched with _ | ⟨o, rest⟩
  · simp only [apiCreateService, takeOutcome, hs]
    rcases alistGet s.cluster.services (ns, v.Name) <;> simp
  · rcases o with _ | ⟨nf, code⟩
    · simp only [apiCreateService, takeOutcome, hs]
      rcases alistGet s.cluster.services (ns, v.Name) <;> simp
    · simp [apiCreateService, takeOutcome, hs]

theorem apiCreateDeployment_snd_trace (s : ApiState) (ns : String) (d : Deployment) :
    (apiCreateDeployment s ns d).2.trace = s.trace ++ [Call.deploymentsCreate ns d] := by
  rcases hs : s.sched with _ | ⟨o, rest⟩
  · simp only [apiCreateDeployment, takeOutcome, hs]
    rcases alistGet s.cluster.deployments (ns, d.Name) <;> simp
  · rcases o with _ | ⟨nf, code⟩
    · simp only [apiCreateDeployment, takeOutcome, hs]
      rcases alistGet s.cluster.deployments (ns, d.Name) <;> simp
    · simp [apiCreateDeployment, takeOutcome, hs]

theorem apiUpdateDeployment_snd_trace (s : ApiState) (ns : String) (d : Deployment) :
    (apiUpdateDeployment s ns d).2.trace = s.trace ++ [Call.deploymentsUpdate ns d] := by
  rcases hs : s.sched with _ | ⟨o, rest⟩
  · simp only [apiUpdateDeployment, takeOutcome, hs]
    rcases alistGet s.cluster.deployments (ns, d.Name) <;> simp
  · rcases o with _ | ⟨nf, code⟩
    · simp only [apiUpdateDeployment, takeOutcome, hs]
      rcases alistGet s.cluster.deployments (ns, d.Name) <;> simp
    · simp [apiUpdateDeployment, takeOutcome, hs]

/-! ### Lemmas about the readiness loop -/

theorem waitLoop_trace (pods : Nat → PodsResponse) (nm : String) :
    ∀ (fuel i : Nat), ∀ c ∈ (waitLoop pods nm i fuel).2,
      c = podsListCall nm ∨ c = Call.sleep 1 := by
  intro fuel
  induction fuel with
  | zero => intro i c hc; simp [waitLoop] at hc
  | succ n ih =>
    intro i c hc
    rcases hf : findPod (pods i) nm with e | p <;> simp only [waitLoop, hf] at hc
    · rcases List.mem_cons.mp hc with hc | hc
      · exact Or.inl hc
      · rcases List.mem_cons.mp hc with hc | hc
        · exact Or.inr hc
        · exact ih (i + 1) c hc
    · simp at hc
      exact Or.inl hc

theorem waitLoop_none (pods : Nat → PodsResponse) (nm : String) :
    ∀ (fuel i : Nat),
      (∀ j, j < fuel → (findPod (pods (i + j)) nm).toOption = none) →
      (waitLoop pods nm i fuel).1 = none := by
  intro fuel
  induction fuel with
  | zero => intro i _; simp [waitLoop]
  | succ n ih =>
    intro i h
    have h0 := h 0 (Nat.succ_pos n)
    rcases hf : findPod (pods i) nm with e | p
    · simp only [waitLoop, hf]
      exact ih (i + 1) (fun j hj => by
        have := h (j + 1) (Nat.succ_lt_succ hj)
        simpa [Nat.add_assoc, Nat.add_comm 1 j] using this)
    · rw [Nat.add_zero] at h0
      rw [hf] at h0
      simp [Except.toOption] at h0

theorem waitLoop_some (pods : Nat → PodsResponse) (nm : String) :
    ∀ (fuel i k : Nat), i ≤ k → k < i + fuel →
      (findPod (pods k) nm).toOption.isSome →
      (∀ j, i ≤ j → j < k → (findPod (pods j) nm).toOption = none) →
      (waitLoop pods nm i fuel).1 = some k ∧
      (waitLoop pods nm i fuel).2.countP Call.isSleep = k - i := by
  intro fuel
  induction fuel with
  | zero => intro i k h1 h2; omega
  | succ n ih =>
    intro i k h1 h2 hk hbefore
    rcases Nat.eq_or_lt_of_le h1 with he | hlt
    · subst he
      rcases hf : findPod (pods i) nm with e | p
      · rw [hf] at hk; simp [Except.toOption] at hk
      · simp only [waitLoop, hf]
        constructor
        · simp
        · simp [List.countP_cons, List.countP_nil, podsListCall, Call.isSleep]
    · have h0 : (findPod (pods i) nm).toOption = none := hbefore i le_rfl hlt
      rcases hf : findPod (pods i) nm with e | p
      · simp only [waitLoop, hf]
        have hrec := ih (i + 1) k hlt (by omega) hk
          (fun j hj1 hj2 => hbefore j (by omega) hj2)
        refine ⟨hrec.1, ?_⟩
        simp [List.countP_cons, podsListCall, Call.isSleep, hrec.2]
        omega
      · rw [hf] at h0; simp [Except.toOption] at h0

theorem waitLoop_some_inv (pods : Nat → PodsResponse) (nm : String) :
    ∀ (fuel i k : Nat), (waitLoop pods nm i fuel).1 = some k →
      i ≤ k ∧ k < i + fuel ∧ (findPod (pods k) nm).toOption.isSome := by
  intro fuel
  induction fuel with
  | zero => intro i k h; simp [waitLoop] at h
  | succ n ih =>
    intro i k h
    rcases hf : findPod (pods i) nm with e | p <;> simp only [waitLoop, hf] at h
    · have := ih (i + 1) k h
      exact ⟨by omega, by omega, this.2.2⟩
    · simp at h
      subst h
      refine ⟨le_rfl, by omega, ?_⟩
      rw [hf]
      simp [Except.toOption]

theorem waitLoop_instant (pods : Nat → PodsResponse) (nm : String)
    (hp : ∃ p, findPod (pods 0) nm = .ok p) :
    waitLoop pods nm 0 1 = (some 0, [podsListCall nm]) := by
  rcases hp with ⟨p, hp⟩
  simp [waitLoop, hp]

theorem findPod_instant (nm : String) (h : nm ≠ "") :
    findPod (instantPods nm 0) nm =
      .ok { Name := nm ++ "-pod", Namespace := "default",
            ContainerStatuses := [{ Running := true }] } := by
  simp [findPod, instantPods, selectRunning, h]

theorem mkServicePorts_length (j : Nat) (ps : List Int) :
    (mkServicePorts j ps).length = ps.length := by
  induction ps generalizing j with
  | nil => rfl
  | cons p rest ih => simp [mkServicePorts, ih]

theorem mkServicePorts_get? (ps : List Int) :
    ∀ (j i : Nat), (mkServicePorts j ps).get? i =
      (ps.get? i).map (fun p =>
        { Name := toString (j + i), Port := p, TargetPort := p, Protocol := "TCP" }) := by
  induction ps with
  | nil => intro j i; simp [mkServicePorts]
  | cons p rest ih =>
    intro j i
    cases i with
    | zero => simp [mkServicePorts]
    | succ i2 =>
      simp only [mkServicePorts, List.get?_cons_succ]
      rw [ih (j + 1) i2]
      have : j + 1 + i2 = j + (i2 + 1) := by omega
      rw [this]

theorem alistDel_of_get_none {α : Type} (l : List ((String × String) × α))
    (k : String × String) (h : alistGet l k = none) : alistDel l k = l := by
  rw [alistGet, Option.map_eq_none', List.find?_eq_none] at h
  refine List.filter_eq_self.mpr (fun e he => ?_)
  simpa using h e he

theorem apiDeleteService_snd_trace (s : ApiState) (ns nm : String) :
    (apiDeleteService s ns nm).2.trace = s.trace ++ [Call.servicesDelete ns nm] := by
  rcases hs : s.sched with _ | ⟨o, rest⟩
  · simp only [apiDeleteService, takeOutcome, hs]
    rcases alistGet s.cluster.services (ns, nm) <;> simp
  · rcases o with _ | ⟨nf, code⟩
    · simp only [apiDeleteService, takeOutcome, hs]
      rcases alistGet s.cluster.services (ns, nm) <;> simp
    · simp [apiDeleteService, takeOutcome, hs]

theorem apiDeleteDeployment_snd_trace (s : ApiState) (ns nm : String) :
    (apiDeleteDeployment s ns nm).2.trace = s.trace ++ [Call.deploymentsDelete ns nm] := by
  rcases hs : s.sched with _ | ⟨o, rest⟩
  · simp only [apiDeleteDeployment, takeOutcome, hs]
    rcases alistGet s.cluster.deployments (ns, nm) <;> simp
  · rcases o with _ | ⟨nf, code⟩
    · simp only [apiDeleteDeployment, takeOutcome, hs]
      rcases alistGet s.cluster.deployments (ns, nm) <;> simp
    · simp [apiDeleteDeployment, takeOutcome, hs]

theorem apiCreateDeployment_services (s : ApiState) (ns : String) (d : Deployment) :
    (apiCreateDeployment s ns d).2.cluster.services = s.cluster.services := by
  rcases hs : s.sched with _ | ⟨o, rest⟩
  · simp only [apiCreateDeployment, takeOutcome, hs]
    rcases alistGet s.cluster.deployments (ns, d.Name) <;> simp
  · rcases o with _ | ⟨nf, code⟩
    · simp only [apiCreateDeployment, takeOutcome, hs]
      rcases alistGet s.cluster.deployments (ns, d.Name) <;> simp
    · simp [apiCreateDeployment, takeOutcome, hs]

theorem apiUpdateDeployment_services (s : ApiState) (ns : String) (d : Deployment) :
    (apiUpdateDeployment s ns d).2.cluster.services = s.cluster.services := by
  rcases hs : s.sched with _ | ⟨o, rest⟩
  · simp only [apiUpdateDeployment, takeOutcome, hs]
    rcases alistGet s.cluster.deployments (ns, d.Name) <;> simp
  · rcases o with _ | ⟨nf, code⟩
    · simp only [apiUpdateDeployment, takeOutcome, hs]
      rcases alistGet s.cluster.deployments (ns, d.Name) <;> simp
    · simp [apiUpdateDeployment, takeOutcome, hs]

/-! ### Composite lemmas about createService and createDeployment -/

theorem createService_store_absent (s : ApiState) (image nm : String) (cfg : Runtime)
    (h : s.sched = []) (ha : alistGet s.cluster.services ("default", nm) = none) :
    createService s image nm cfg =
      (.ok (),
       { cluster := { deployments := s.cluster.deployments,
                      services := alistPut s.cluster.services ("default", nm)
                        (mkService nm cfg) },
         sched := [],
         trace := s.trace ++ [Call.servicesGet "default" nm,
                              Call.servicesCreate "default" (mkService nm cfg)] }) := by
  simp [createService, apiGetService, apiCreateService, takeOutcome, h, ha,
        K8sErr.IsNotFound, mkService]

theorem createService_store_present (s : ApiState) (image nm : String) (cfg : Runtime)
    (v : Service) (h : s.sched = []) (ha : alistGet s.cluster.services ("default", nm) = some v) :
    createService s image nm cfg =
      (.ok (), { s with sched := [], trace := s.trace ++ [Call.servicesGet "default" nm] }) := by
  simp [createService, apiGetService, takeOutcome, h, ha, mkService]

theorem createService_store_ok (s : ApiState) (image nm : String) (cfg : Runtime)
    (h : s.sched = []) :
    (createService s image nm cfg).1 = .ok () ∧
    (createService s image nm cfg).2.cluster.deployments = s.cluster.deployments ∧
    (createService s image nm cfg).2.sched = [] := by
  rcases ha : alistGet s.cluster.services ("default", nm) with _ | v
  · rw [createService_store_absent s image nm cfg h ha]
    exact ⟨rfl, rfl, rfl⟩
  · rw [createService_store_present s image nm cfg v h ha]
    exact ⟨rfl, rfl, rfl⟩

theorem createService_trace_shape (s : ApiState) (image nm : String) (cfg : Runtime) :
    ∃ ts, (createService s image nm cfg).2.trace = s.trace ++ ts ∧
      (∀ c ∈ ts, c.isServiceCall = true ∧ c.crudNs = some "default") ∧
      ts.head? = some (Call.servicesGet "default" nm) := by
  have hNs : (mkService nm cfg).Namespace = "default" := rfl
  have hNm : (mkService nm cfg).Name = nm := rfl
  have hsnd := apiGetService_snd s "default" nm
  rcases hr : (apiGetService s "default" nm).1 with e | v
  · rcases he : e.IsNotFound with _ | _
    · refine ⟨[Call.servicesGet "default" nm], ?_, ?_, rfl⟩
      · simp [createService, hNs, hNm, hr, he, hsnd]
      · intro c hc
        simp at hc
        subst hc
        exact ⟨rfl, rfl⟩
    · refine ⟨[Call.servicesGet "default" nm,
               Call.servicesCreate "default" (mkService nm cfg)], ?_, ?_, rfl⟩
      · have ht := apiCreateService_snd_trace ((apiGetService s "default" nm).2) "default"
          (mkService nm cfg)
        rcases hc2 : (apiCreateService ((apiGetService s "default" nm).2) "default"
            (mkService nm cfg)).1 with e2 | v2
        all_goals rw [hsnd] at hc2 ht
        all_goals simp [createService, hNs, hNm, hr, he, hsnd, hc2, ht]
      · intro c hc
        rcases List.mem_cons.mp hc with hc | hc
        · subst hc; exact ⟨rfl, rfl⟩
        · simp at hc; subst hc; exact ⟨rfl, rfl⟩
  · refine ⟨[Call.servicesGet "default" nm], ?_, ?_, rfl⟩
    · simp [createService, hNs, hNm, hr, hsnd]
    · intro c hc
      simp at hc
      subst hc
      exact ⟨rfl, rfl⟩

theorem createDeployment_store_create (pods : Nat → PodsResponse) (s : ApiState)
    (image nm : String) (cfg : Runtime)
    (h : s.sched = []) (ha : alistGet s.cluster.deployments ("default", nm) = none)
    (hp : ∃ p, findPod (pods 0) nm = .ok p) :
    createDeployment pods 1 s image nm cfg true =
      (some (.ok ()),
       { cluster := { deployments := alistPut s.cluster.deployments ("default", nm)
                        (mkDeployment image nm cfg),
                      services := s.cluster.services },
         sched := [],
         trace := s.trace ++ [Call.deploymentsGet "default" nm,
                              Call.deploymentsCreate "default" (mkDeployment image nm cfg),
                              podsListCall nm] }) := by
  rcases hp with ⟨p, hp⟩
  simp [createDeployment, apiGetDeployment, apiCreateDeployment, takeOutcome, h, ha,
        K8sErr.IsNotFound, mkDeployment, waitLoop, hp]

theorem createDeployment_store_update (pods : Nat → PodsResponse) (s : ApiState)
    (image nm : String) (cfg : Runtime) (d0 : Deployment)
    (h : s.sched = []) (ha : alistGet s.cluster.deployments ("default", nm) = some d0)
    (hp : ∃ p, findPod (pods 0) nm = .ok p) :
    createDeployment pods 1 s image nm cfg true =
      (some (.ok ()),
       { cluster := { deployments := alistPut s.cluster.deployments ("default", nm)
                        (mkDeployment image nm cfg),
                      services := s.cluster.services },
         sched := [],
         trace := s.trace ++ [Call.deploymentsGet "default" nm,
                              Call.deploymentsUpdate "default" (mkDeployment image nm cfg),
                              podsListCall nm] }) := by
  rcases hp with ⟨p, hp⟩
  simp [createDeployment, apiGetDeployment, apiUpdateDeployment, takeOutcome, h, ha,
        K8sErr.IsNotFound, mkDeployment, waitLoop, hp]

theorem createDeployment_trace_shape (pods : Nat → PodsResponse) (fuel : Nat) (s : ApiState)
    (image nm : String) (cfg : Runtime) (w : Bool) :
    ∃ ts, (createDeployment pods fuel s image nm cfg w).2.trace = s.trace ++ ts ∧
      (∀ c ∈ ts, c.isServiceCall = false ∧ (c.crudNs = none ∨ c.crudNs = some "default")) ∧
      ts.head? = some (Call.deploymentsGet "default" nm) := by
  have hNs : (mkDeployment image nm cfg).Namespace = "default" := rfl
  have hNm : (mkDeployment image nm cfg).Name = nm := rfl
  have hsnd := apiGetDeployment_snd s "default" nm
  have hwl := waitLoop_trace pods nm fuel 0
  rcases hr : (apiGetDeployment s "default" nm).1 with e | d
  · rcases he : e.IsNotFound with _ | _
    · refine ⟨[Call.deploymentsGet "default" nm], ?_, ?_, rfl⟩
      · simp [createDeployment, hNs, hNm, hr, he, hsnd]
      · intro c hc; simp at hc; subst hc; exact ⟨rfl, Or.inr rfl⟩
    · have ht := apiCreateDeployment_snd_trace ((apiGetDeployment s "default" nm).2) "default"
        (mkDeployment image nm cfg)
      rcases hc2 : (apiCreateDeployment ((apiGetDeployment s "default" nm).2) "default"
          (mkDeployment image nm cfg)).1 with e2 | d2
      · refine ⟨[Call.deploymentsGet "default" nm,
                 Call.deploymentsCreate "default" (mkDeployment image nm cfg)], ?_, ?_, rfl⟩
        · rw [hsnd] at hc2 ht
          simp [createDeployment, hNs, hNm, hr, he, hsnd, hc2, ht]
        · intro c hc
          rcases List.mem_cons.mp hc with hc | hc
          · subst hc; exact ⟨rfl, Or.inr rfl⟩
          · simp at hc; subst hc; exact ⟨rfl, Or.inr rfl⟩
      · cases w
        · refine ⟨[Call.deploymentsGet "default" nm,
                   Call.deploymentsCreate "default" (mkDeployment image nm cfg)], ?_, ?_, rfl⟩
          · rw [hsnd] at hc2 ht
            simp [createDeployment, hNs, hNm, hr, he, hsnd, hc2, ht]
          · intro c hc
            rcases List.mem_cons.mp hc with hc | hc
            · subst hc; exact ⟨rfl, Or.inr rfl⟩
            · simp at hc; subst hc; exact ⟨rfl, Or.inr rfl⟩
        · refine ⟨[Call.deploymentsGet "default" nm,
                   Call.deploymentsCreate "default" (mkDeployment image nm cfg)]
                    ++ (waitLoop pods nm 0 fuel).2, ?_, ?_, rfl⟩
          · rw [hsnd] at hc2 ht
            simp [createDeployment, hNs, hNm, hr, he, hsnd, hc2, ht]
          · intro c hc
            rcases List.mem_append.mp hc with hc | hc
            · rcases List.mem_cons.mp hc with hc | hc
              · subst hc; exact ⟨rfl, Or.inr rfl⟩
              · simp at hc; subst hc; exact ⟨rfl, Or.inr rfl⟩
            · rcases hwl c hc with hc1 | hc1 <;> subst hc1
              · exact ⟨rfl, Or.inr rfl⟩
              · exact ⟨rfl, Or.inl rfl⟩
  · have ht := apiUpdateDeployment_snd_trace ((apiGetDeployment s "default" nm).2) "default"
      (mkDeployment image nm cfg)
    rcases hc2 : (apiUpdateDeployment ((apiGetDeployment s "default" nm).2) "default"
        (mkDeployment image nm cfg)).1 with e2 | d2
    · refine ⟨[Call.deploymentsGet "default" nm,
               Call.deploymentsUpdate "default" (mkDeployment image nm cfg)], ?_, ?_, rfl⟩
      · rw [hsnd] at hc2 ht
        simp [createDeployment, hNs, hNm, hr, hsnd, hc2, ht]
      · intro c hc
        rcases List.mem_cons.mp hc with hc | hc
        · subst hc; exact ⟨rfl, Or.inr rfl⟩
        · simp at hc; subst hc; exact ⟨rfl, Or.inr rfl⟩
    · cases w
      · refine ⟨[Call.deploymentsGet "default" nm,
                 Call.deploymentsUpdate "default" (mkDeployment image nm cfg)], ?_, ?_, rfl⟩
        · rw [hsnd] at hc2 ht
          simp [createDeployment, hNs, hNm, hr, hsnd, hc2, ht]
        · intro c hc
          rcases List.mem_cons.mp hc with hc | hc
          · subst hc; exact ⟨rfl, Or.inr rfl⟩
          · simp at hc; subst hc; exact ⟨rfl, Or.inr rfl⟩
      · refine ⟨[Call.deploymentsGet "default" nm,
                 Call.deploymentsUpdate "default" (mkDeployment image nm cfg)]
                  ++ (waitLoop pods nm 0 fuel).2, ?_, ?_, rfl⟩
        · rw [hsnd] at hc2 ht
          simp [createDeployment, hNs, hNm, hr, hsnd, hc2, ht]
        · intro c hc
          rcases List.mem_append.mp hc with hc | hc
          · rcases List.mem_cons.mp hc with hc | hc
            · subst hc; exact ⟨rfl, Or.inr rfl⟩
            · simp at hc; subst hc; exact ⟨rfl, Or.inr rfl⟩
          · rcases hwl c hc with hc1 | hc1 <;> subst hc1
            · exact ⟨rfl, Or.inr rfl⟩
            · exact ⟨rfl, Or.inl rfl⟩

theorem createDeployment_ok_wait (pods : Nat → PodsResponse) (fuel : Nat) (s : ApiState)
    (image nm : String) (cfg : Runtime)
    (h : (createDeployment pods fuel s image nm cfg true).1 = some (.ok ())) :
    ∃ k, (waitLoop pods nm 0 fuel).1 = some k := by
  have hNs : (mkDeployment image nm cfg).Namespace = "default" := rfl
  have hNm : (mkDeployment image nm cfg).Name = nm := rfl
  rcases hr : (apiGetDeployment s "default" nm).1 with e | d
  · rcases he : e.IsNotFound with _ | _
    · simp [createDeployment, hNs, hNm, hr, he] at h
    · rcases hc2 : (apiCreateDeployment ((apiGetDeployment s "default" nm).2) "default"
          (mkDeployment image nm cfg)).1 with e2 | d2
      · simp [createDeployment, hNs, hNm, hr, he, hc2] at h
      · simp only [createDeployment, hNs, hNm, hr, he, hc2] at h
        rcases hwl : (waitLoop pods nm 0 fuel).1 with _ | k
        · simp [hwl, hc2] at h
        · exact ⟨k, rfl⟩
  · rcases hc2 : (apiUpdateDeployment ((apiGetDeployment s "default" nm).2) "default"
        (mkDeployment image nm cfg)).1 with e2 | d2
    · simp [createDeployment, hNs, hNm, hr, hc2] at h
    · simp only [createDeployment, hNs, hNm, hr, hc2] at h
      rcases hwl : (waitLoop pods nm 0 fuel).1 with _ | k
      · simp [hwl, hc2] at h
      · exact ⟨k, rfl⟩

theorem Run_trace_decomp (st : Cluster) (sched : List Outcome) (pods : Nat → PodsResponse)
    (fuel : Nat) (image nm : String) (cfg : Runtime) (hi : image ≠ "") (hn : nm ≠ "") :
    ∃ ts1 ts2, (Run st sched pods fuel image nm (some cfg)).trace = ts1 ++ ts2 ∧
      (∀ c ∈ ts1, c.isServiceCall = true ∧ c.crudNs = some "default") ∧
      (∀ c ∈ ts2, c.isServiceCall = false ∧ (c.crudNs = none ∨ c.crudNs = some "default")) ∧
      (cfg.Ports.length = 0 → ts1 = []) ∧
      (cfg.Ports.length ≠ 0 → ts1.head? = some (Call.servicesGet "default" nm)) := by
  by_cases hp : cfg.Ports.length = 0
  · obtain ⟨ts, hts, hall, _⟩ :=
      createDeployment_trace_shape pods fuel ⟨st, sched, []⟩ image nm cfg true
    refine ⟨[], ts, ?_, by simp, hall, fun _ => rfl, fun hc => absurd hp hc⟩
    simp only [Run, hi, hn, if_neg, hp]
    simp [Run, hi, hn, hp]
    simpa using hts
  · obtain ⟨ts1, hts1, hall1, hhd1⟩ := createService_trace_shape ⟨st, sched, []⟩ image nm cfg
    obtain ⟨ts2, hts2, hall2, hhd2⟩ :=
      createDeployment_trace_shape pods fuel ((createService ⟨st, sched, []⟩ image nm cfg).2)
        image nm cfg true
    rcases hcs : createService ⟨st, sched, []⟩ image nm cfg with ⟨r, s1⟩
    rw [hcs] at hts1 hts2
    rcases r with e | u
    · refine ⟨ts1, [], ?_, hall1, by simp, fun hc => absurd hc hp, fun _ => hhd1⟩
      simp only [Run, hi, hn]
      simp [hp, hcs]
      simpa using hts1
    · refine ⟨ts1, ts2, ?_, hall1, hall2, fun hc => absurd hc hp, fun _ => hhd1⟩
      simp only [Run, hi, hn]
      simp [hp, hcs]
      rw [hts2]
      rw [hts1]
      simp

theorem createDeployment_services (pods : Nat → PodsResponse) (fuel : Nat) (s : ApiState)
    (image nm : String) (cfg : Runtime) (w : Bool) :
    (createDeployment pods fuel s image nm cfg w).2.cluster.services = s.cluster.services := by
  have hNs : (mkDeployment image nm cfg).Namespace = "default" := rfl
  have hNm : (mkDeployment image nm cfg).Name = nm := rfl
  have hsnd := apiGetDeployment_snd s "default" nm
  rcases hr : (apiGetDeployment s "default" nm).1 with e | d
  · rcases he : e.IsNotFound with _ | _
    · simp [createDeployment, hNs, hNm, hr, he, hsnd]
    · have hsv := apiCreateDeployment_services ((apiGetDeployment s "default" nm).2) "default"
        (mkDeployment image nm cfg)
      rcases hc2 : (apiCreateDeployment ((apiGetDeployment s "default" nm).2) "default"
          (mkDeployment image nm cfg)).1 with e2 | d2
      all_goals rw [hsnd] at hc2 hsv
      all_goals cases w
      all_goals simp [createDeployment, hNs, hNm, hr, he, hsnd, hc2, hsv]
  · have hsv := apiUpdateDeployment_services ((apiGetDeployment s "default" nm).2) "default"
      (mkDeployment image nm cfg)
    rcases hc2 : (apiUpdateDeployment ((apiGetDeployment s "default" nm).2) "default"
        (mkDeployment image nm cfg)).1 with e2 | d2
    all_goals rw [hsnd] at hc2 hsv
    all_goals cases w
    all_goals simp [createDeployment, hNs, hNm, hr, hsnd, hc2, hsv]

theorem Run_store_mode (st : Cluster) (pods : Nat → PodsResponse) (image nm : String)
    (cfg : Runtime) (hi : image ≠ "") (hn : nm ≠ "")
    (hp2 : ∃ p, findPod (pods 0) nm = .ok p) :
    (Run st [] pods 1 image nm (some cfg)).result = some (.ok ()) ∧
    (Run st [] pods 1 image nm (some cfg)).cluster.deployments =
      alistPut st.deployments ("default", nm) (mkDeployment image nm cfg) ∧
    Call.deploymentsGet "default" nm ∈ (Run st [] pods 1 image nm (some cfg)).trace ∧
    (alistGet st.deployments ("default", nm) = none →
      Call.deploymentsCreate "default" (mkDeployment image nm cfg)
        ∈ (Run st [] pods 1 image nm (some cfg)).trace) ∧
    (∀ d0, alistGet st.deployments ("default", nm) = some d0 →
      Call.deploymentsUpdate "default" (mkDeployment image nm cfg)
        ∈ (Run st [] pods 1 image nm (some cfg)).trace) := by
  by_cases hp : cfg.Ports.length = 0
  · rcases ha : alistGet st.deployments ("default", nm) with _ | d0
    · have hcd := createDeployment_store_create pods ⟨st, [], []⟩ image nm cfg rfl ha hp2
      have hrun : Run st [] pods 1 image nm (some cfg) =
          ⟨some (.ok ()),
           { deployments := alistPut st.deployments ("default", nm) (mkDeployment image nm cfg),
             services := st.services },
           [Call.deploymentsGet "default" nm,
            Call.deploymentsCreate "default" (mkDeployment image nm cfg),
            podsListCall nm]⟩ := by
        simp [Run, hi, hn, hp, hcd]
      rw [hrun]
      exact ⟨rfl, rfl, by simp, fun _ => by simp, fun d0 hd0 => Option.noConfusion hd0⟩
    · have hcd := createDeployment_store_update pods ⟨st, [], []⟩ image nm cfg d0 rfl ha hp2
      have hrun : Run st [] pods 1 image nm (some cfg) =
          ⟨some (.ok ()),
           { deployments := alistPut st.deployments ("default", nm) (mkDeployment image nm cfg),
             services := st.services },
           [Call.deploymentsGet "default" nm,
            Call.deploymentsUpdate "default" (mkDeployment image nm cfg),
            podsListCall nm]⟩ := by
        simp [Run, hi, hn, hp, hcd]
      rw [hrun]
      exact ⟨rfl, rfl, by simp, fun hnone => Option.noConfusion hnone, fun d1 _ => by simp⟩
  · have hok := createService_store_ok ⟨st, [], []⟩ image nm cfg rfl
    rcases hcs : createService ⟨st, [], []⟩ image nm cfg with ⟨r, s1⟩
    rw [hcs] at hok
    obtain ⟨hr, hdep, hsched⟩ := hok
    simp only at hr hdep hsched
    subst hr
    rcases ha : alistGet st.deployments ("default", nm) with _ | d0
    · have hcd := createDeployment_store_create pods s1 image nm cfg hsched
        (by rw [hdep]; exact ha) hp2
      have hrun : Run st [] pods 1 image nm (some cfg) =
          ⟨some (.ok ()),
           { deployments := alistPut s1.cluster.deployments ("default", nm)
               (mkDeployment image nm cfg),
             services := s1.cluster.services },
           s1.trace ++ [Call.deploymentsGet "default" nm,
            Call.deploymentsCreate "default" (mkDeployment image nm cfg),
            podsListCall nm]⟩ := by
        simp [Run, hi, hn, hp, hcs, hcd]
      rw [hrun]
      exact ⟨rfl, by rw [hdep], by simp, fun _ => by simp, fun d0 hd0 => Option.noConfusion hd0⟩
    · have hcd := createDeployment_store_update pods s1 image nm cfg d0 hsched
        (by rw [hdep]; exact ha) hp2
      have hrun : Run st [] pods 1 image nm (some cfg) =
          ⟨some (.ok ()),
           { deployments := alistPut s1.cluster.deployments ("default", nm)
               (mkDeployment image nm cfg),
             services := s1.cluster.services },
           s1.trace ++ [Call.deploymentsGet "default" nm,
            Call.deploymentsUpdate "default" (mkDeployment image nm cfg),
            podsListCall nm]⟩ := by
        simp [Run, hi, hn, hp, hcs, hcd]
      rw [hrun]
      exact ⟨rfl, by rw [hdep], by simp, fun hnone => Option.noConfusion hnone, fun d1 _ => by simp⟩

theorem Cancel_trace_shape (st : Cluster) (sched : List Outcome) (nm : String) :
    ∀ c ∈ (Cancel st sched nm).2.2,
      c = Call.servicesDelete "default" nm ∨ c = Call.deploymentsDelete "default" nm := by
  intro c hc
  by_cases hn : nm = ""
  · simp [Cancel, hn] at hc
  · have h1 := apiDeleteService_snd_trace ⟨st, sched, []⟩ "default" nm
    rcases hds : apiDeleteService ⟨st, sched, []⟩ "default" nm with ⟨r1, s1⟩
    rw [hds] at h1
    simp only at h1
    have h2 := apiDeleteDeployment_snd_trace s1 "default" nm
    rcases hdd : apiDeleteDeployment s1 "default" nm with ⟨r2, s2⟩
    rw [hdd] at h2
    simp only at h2
    simp only [Cancel, hn, hds, hdd, if_neg] at hc
    rcases r1 with e1 | u1
    · rcases he : e1.IsNotFound with _ | _
      · simp [he, h1] at hc
        subst hc
        exact Or.inl rfl
      · rcases r2 with e2 | u2
        · rcases he2 : e2.IsNotFound with _ | _ <;> simp [he, he2, h2, h1] at hc <;>
            rcases hc with hc | hc <;> simp [hc]
        · simp [he, h2, h1] at hc
          rcases hc with hc | hc <;> simp [hc]
    · rcases r2 with e2 | u2
      · rcases he2 : e2.IsNotFound with _ | _ <;> simp [he2, h2, h1] at hc <;>
          rcases hc with hc | hc <;> simp [hc]
      · simp [h2, h1] at hc
        rcases hc with hc | hc <;> simp [hc]

theorem Cancel_store (st : Cluster) (nm : String) (hn : nm ≠ "") :
    Cancel st [] nm =
      (.ok (),
       { deployments := alistDel st.deployments ("default", nm),
         services := alistDel st.services ("default", nm) },
       [Call.servicesDelete "default" nm, Call.deploymentsDelete "default" nm]) := by
  rcases hsv : alistGet st.services ("default", nm) with _ | v
  · have e1 := apiDeleteService_store_absent ⟨st, [], []⟩ "default" nm rfl hsv
    rcases hdp : alistGet st.deployments ("default", nm) with _ | d
    · have e2 := apiDeleteDeployment_store_absent
        ⟨st, [], [Call.servicesDelete "default" nm]⟩ "default" nm rfl hdp
      simp [Cancel, hn, e1, e2, K8sErr.IsNotFound,
            alistDel_of_get_none _ _ hsv, alistDel_of_get_none _ _ hdp]
    · have e2 := apiDeleteDeployment_store_present
        ⟨st, [], [Call.servicesDelete "default" nm]⟩ "default" nm d rfl hdp
      simp [Cancel, hn, e1, e2, K8sErr.IsNotFound, alistDel_of_get_none _ _ hsv]
  · have e1 := apiDeleteService_store_present ⟨st, [], []⟩ "default" nm v rfl hsv
    rcases hdp : alistGet st.deployments ("default", nm) with _ | d
    · have e2 := apiDeleteDeployment_store_absent
        ⟨{ deployments := st.deployments, services := alistDel st.services ("default", nm) },
          [], [Call.servicesDelete "default" nm]⟩ "default" nm rfl hdp
      simp [Cancel, hn, e1, e2, K8sErr.IsNotFound, alistDel_of_get_none _ _ hdp]
    · have e2 := apiDeleteDeployment_store_present
        ⟨{ deployments := st.deployments, services := alistDel st.services ("default", nm) },
          [], [Call.servicesDelete "default" nm]⟩ "default" nm d rfl hdp
      simp [Cancel, hn, e1, e2, K8sErr.IsNotFound]

theorem createDeployment_inj_get (pods : Nat → PodsResponse) (fuel : Nat) (s : ApiState)
    (image nm : String) (cfg : Runtime) (w : Bool) (code : Nat) (rest : List Outcome)
    (h : s.sched = some (false, code) :: rest) :
    createDeployment pods fuel s image nm cfg w =
      (some (.error (.api (.injected false code))),
       { s with sched := rest, trace := s.trace ++ [Call.deploymentsGet "default" nm] }) := by
  simp [createDeployment, apiGetDeployment, takeOutcome, h, K8sErr.IsNotFound, mkDeployment]

/-! ### The claims -/

/-- C1: for every call to Run with non-empty image, non-empty name and a
non-nil config (store semantics; the readiness query is answered at
once), the Deployment reconciliation looks the Deployment up by name;
when the lookup reports not-found the Deployment is created from the
spec, when it succeeds the stored Deployment is replaced wholesale with
the newly derived one, so after any Run the stored Deployment is exactly
the one derived from the given spec and a second Run with a changed spec
leaves the second spec stored; a lookup error other than NotFound is
returned to the caller unchanged. -/
theorem C1_deployment_reconciliation (st : Cluster) (image nm : String) (c c2 : Runtime)
    (hi : image ≠ "") (hn : nm ≠ "") :
    (Call.deploymentsGet "default" nm ∈ (Run st [] (instantPods nm) 1 image nm (some c)).trace) ∧
    (alistGet st.deployments ("default", nm) = none →
      Call.deploymentsCreate "default" (mkDeployment image nm c)
        ∈ (Run st [] (instantPods nm) 1 image nm (some c)).trace) ∧
    (∀ d0, alistGet st.deployments ("default", nm) = some d0 →
      Call.deploymentsUpdate "default" (mkDeployment image nm c)
        ∈ (Run st [] (instantPods nm) 1 image nm (some c)).trace) ∧
    (alistGet (Run st [] (instantPods nm) 1 image nm (some c)).cluster.deployments
        ("default", nm) = some (mkDeployment image nm c)) ∧
    (alistGet (Run (Run st [] (instantPods nm) 1 image nm (some c)).cluster
          [] (instantPods nm) 1 image nm (some c2)).cluster.deployments
        ("default", nm) = some (mkDeployment image nm c2)) ∧
    (∀ (s : ApiState) (code : Nat) (rest : List Outcome) (w : Bool) (fuel : Nat),
      s.sched = some (false, code) :: rest →
      (createDeployment (instantPods nm) fuel s image nm c w).1 =
        some (.error (.api (.injected false code)))) := by
  have hp2 : ∃ p, findPod (instantPods nm 0) nm = .ok p := ⟨_, findPod_instant nm hn⟩
  obtain ⟨hres, hdep, hget, hcre, hupd⟩ := Run_store_mode st (instantPods nm) image nm c hi hn hp2
  obtain ⟨hres2, hdep2, _, _, _⟩ :=
    Run_store_mode (Run st [] (instantPods nm) 1 image nm (some c)).cluster
      (instantPods nm) image nm c2 hi hn hp2
  refine ⟨hget, hcre, hupd, ?_, ?_, ?_⟩
  · rw [hdep]
    exact alistGet_put_self _ _ _
  · rw [hdep2]
    exact alistGet_put_self _ _ _
  · intro s code rest w fuel hs
    rw [createDeployment_inj_get (instantPods nm) fuel s image nm c w code rest hs]

/-- C1 witness: a first Run stores the spec with 1 replica, a second Run
with 2 replicas leaves the 2-replica Deployment stored. -/
theorem C1_deployment_reconciliation_witness :
    ("nginx" : String) ≠ "" ∧ ("web" : String) ≠ "" ∧
    alistGet (Run (Run ⟨[], []⟩ [] (instantPods "web") 1 "nginx" "web"
          (some { Executor := "", Replicas := 1, Ports := [], PublicAddress := false })).cluster
        [] (instantPods "web") 1 "nginx" "web"
        (some { Executor := "", Replicas := 2, Ports := [], PublicAddress := false })).cluster.deployments
      ("default", "web") =
      some (mkDeployment "nginx" "web"
        { Executor := "", Replicas := 2, Ports := [], PublicAddress := false }) :=
  ⟨by decide, by decide,
   (C1_deployment_reconciliation ⟨[], []⟩ "nginx" "web"
      { Executor := "", Replicas := 1, Ports := [], PublicAddress := false }
      { Executor := "", Replicas := 2, Ports := [], PublicAddress := false }
      (by decide) (by decide)).2.2.2.2.1⟩

/-- C2 counterexample: on the spec scenario (image nginx, name web, one
port), the very first remote call Run makes is the Service lookup, and
the Deployment lookup only comes third — the Deployment reconciliation
does not precede the Service reconciliation. -/
theorem C2_counterexample :
    ((Run ⟨[], []⟩ [] (instantPods "web") 1 "nginx" "web"
        (some { Executor := "", Replicas := 2, Ports := [80], PublicAddress := true })).trace.head? =
      some (Call.servicesGet "default" "web")) ∧
    ((Run ⟨[], []⟩ [] (instantPods "web") 1 "nginx" "web"
        (some { Executor := "", Replicas := 2, Ports := [80], PublicAddress := true })).trace.get? 2 =
      some (Call.deploymentsGet "default" "web")) := by
  constructor <;> rfl

/-- C2 (amended): for every call to Run with non-empty ports, the Service
lookup/create sequence is performed first, and only afterward the
Deployment lookup/create/replace sequence: the trace splits into a prefix
of Service calls, starting with the Service lookup, followed by calls
none of which is a Service call. -/
theorem C2_service_reconciliation_first (st : Cluster) (sched : List Outcome)
    (pods : Nat → PodsResponse) (fuel : Nat) (image nm : String) (cfg : Runtime)
    (hi : image ≠ "") (hn : nm ≠ "") (hp : cfg.Ports ≠ []) :
    ∃ ts1 ts2, (Run st sched pods fuel image nm (some cfg)).trace = ts1 ++ ts2 ∧
      (∀ c ∈ ts1, c.isServiceCall = true) ∧
      (∀ c ∈ ts2, c.isServiceCall = false) ∧
      ts1.head? = some (Call.servicesGet "default" nm) := by
  obtain ⟨ts1, ts2, htr, h1, h2, _, hhd⟩ := Run_trace_decomp st sched pods fuel image nm cfg hi hn
  have hplen : cfg.Ports.length ≠ 0 := fun h => hp (List.length_eq_zero.mp h)
  exact ⟨ts1, ts2, htr, fun c hc => (h1 c hc).1, fun c hc => (h2 c hc).1, hhd hplen⟩

/-- C2 witness: the amended ordering at the spec scenario input. -/
theorem C2_service_reconciliation_first_witness :
    ∃ ts1 ts2, (Run ⟨[], []⟩ [] (instantPods "web") 1 "nginx" "web"
        (some { Executor := "", Replicas := 2, Ports := [80], PublicAddress := true })).trace =
        ts1 ++ ts2 ∧
      (∀ c ∈ ts1, c.isServiceCall = true) ∧
      (∀ c ∈ ts2, c.isServiceCall = false) ∧
      ts1.head? = some (Call.servicesGet "default" "web") :=
  C2_service_reconciliation_first ⟨[], []⟩ [] (instantPods "web") 1 "nginx" "web"
    { Executor := "", Replicas := 2, Ports := [80], PublicAddress := true }
    (by decide) (by decide) (by decide)

/-- C3: for every RuntimeSpec whose ports sequence is empty, Run performs
no Service lookup or Service creation call at all. -/
theorem C3_no_service_calls_without_ports (st : Cluster) (sched : List Outcome)
    (pods : Nat → PodsResponse) (fuel : Nat) (image nm : String) (cfg : Runtime)
    (hp : cfg.Ports = []) :
    ∀ c ∈ (Run st sched pods fuel image nm (some cfg)).trace, c.isServiceCall = false := by
  intro c hc
  by_cases hi : image = ""
  · simp [Run, hi] at hc
  by_cases hn : nm = ""
  · simp [Run, hi, hn] at hc
  obtain ⟨ts1, ts2, htr, _, hall2, hz, _⟩ :=
    Run_trace_decomp st sched pods fuel image nm cfg hi hn
  rw [htr] at hc
  rw [hz (by simp [hp])] at hc
  simp at hc
  exact (hall2 c hc).1

/-- C3 witness: a portless Run issues no Service call. -/
theorem C3_no_service_calls_without_ports_witness :
    (Run ⟨[], []⟩ [] (instantPods "web") 1 "nginx" "web"
        (some { Executor := "", Replicas := 1, Ports := [], PublicAddress := false })).trace.all
      (fun c => !c.isServiceCall) = true := by
  apply List.all_eq_true.mpr
  intro c hc
  have h := C3_no_service_calls_without_ports ⟨[], []⟩ [] (instantPods "web") 1 "nginx" "web"
    { Executor := "", Replicas := 1, Ports := [], PublicAddress := false } rfl c hc
  simp [h]

/-- C4: for every call to Run with non-empty ports where the Service
already exists (store semantics), the Service step only looks the
Service up and returns success, the stored services are left entirely
unchanged, and the only Service call in the whole Run trace is that
lookup — no create, update or delete is issued against the existing
Service. -/
theorem C4_existing_service_left_unchanged (st : Cluster) (pods : Nat → PodsResponse)
    (fuel : Nat) (image nm : String) (cfg : Runtime) (v : Service)
    (hi : image ≠ "") (hn : nm ≠ "") (hp : cfg.Ports ≠ [])
    (ha : alistGet st.services ("default", nm) = some v) :
    createService ⟨st, [], []⟩ image nm cfg =
      (.ok (), { cluster := st, sched := [], trace := [Call.servicesGet "default" nm] }) ∧
    (Run st [] pods fuel image nm (some cfg)).cluster.services = st.services ∧
    (∀ c ∈ (Run st [] pods fuel image nm (some cfg)).trace,
      c.isServiceCall = true → c = Call.servicesGet "default" nm) := by
  have hplen : cfg.Ports.length ≠ 0 := fun h => hp (List.length_eq_zero.mp h)
  have hcs := createService_store_present ⟨st, [], []⟩ image nm cfg v rfl ha
  have hserv := createDeployment_services pods fuel
    ⟨st, [], [Call.servicesGet "default" nm]⟩ image nm cfg true
  obtain ⟨ts2, hts2, hall2, _⟩ := createDeployment_trace_shape pods fuel
    ⟨st, [], [Call.servicesGet "default" nm]⟩ image nm cfg true
  have hrun : Run st [] pods fuel image nm (some cfg) =
      ⟨(createDeployment pods fuel ⟨st, [], [Call.servicesGet "default" nm]⟩
          image nm cfg true).1,
       (createDeployment pods fuel ⟨st, [], [Call.servicesGet "default" nm]⟩
          image nm cfg true).2.cluster,
       (createDeployment pods fuel ⟨st, [], [Call.servicesGet "default" nm]⟩
          image nm cfg true).2.trace⟩ := by
    simp [Run, hi, hn, hplen, hcs]
  refine ⟨by simpa using hcs, ?_, ?_⟩
  · rw [hrun]
    simpa using hserv
  · intro c hc hsc
    rw [hrun] at hc
    simp only at hc
    rw [hts2] at hc
    rcases List.mem_append.mp hc with hc | hc
    · simpa using hc
    · exact absurd hsc (by simp [(hall2 c hc).1])

/-- C4 witness: a Run against a cluster already holding the Service
leaves the services store untouched. -/
theorem C4_existing_service_left_unchanged_witness :
    (Run ⟨[], [(("default", "web"), mkService "web"
          { Executor := "", Replicas := 2, Ports := [80], PublicAddress := true })]⟩
       [] (instantPods "web") 1 "nginx" "web"
       (some { Executor := "", Replicas := 2, Ports := [80], PublicAddress := true })).cluster.services =
      [(("default", "web"), mkService "web"
          { Executor := "", Replicas := 2, Ports := [80], PublicAddress := true })] :=
  (C4_existing_service_left_unchanged
    ⟨[], [(("default", "web"), mkService "web"
        { Executor := "", Replicas := 2, Ports := [80], PublicAddress := true })]⟩
    (instantPods "web") 1 "nginx" "web"
    { Executor := "", Replicas := 2, Ports := [80], PublicAddress := true }
    (mkService "web" { Executor := "", Replicas := 2, Ports := [80], PublicAddress := true })
    (by decide) (by decide) (by decide) (by decide)).2.1

/-- C5: for every non-empty name, Cancel deletes the Service named name
and then the Deployment named name (in that order); a NotFound answer
from either deletion is treated as success, so Cancel on a name with no
resources returns no error, a repeated Cancel still returns success, and
the Deployment deletion is attempted even when the Service was already
absent; a deletion error other than NotFound is returned unchanged. -/
theorem C5_cancel_semantics (st : Cluster) (nm : String) (hn : nm ≠ "") :
    ((Cancel st [] nm).2.2 =
      [Call.servicesDelete "default" nm, Call.deploymentsDelete "default" nm]) ∧
    ((Cancel st [] nm).1 = .ok ()) ∧
    ((Cancel (Cancel st [] nm).2.1 [] nm).1 = .ok ()) ∧
    ((Cancel st [] nm).2.1.services = alistDel st.services ("default", nm)) ∧
    ((Cancel st [] nm).2.1.deployments = alistDel st.deployments ("default", nm)) ∧
    (∀ code, (Cancel st [some (true, code)] nm).1 = .ok () ∧
      (Cancel st [some (true, code)] nm).2.2 =
        [Call.servicesDelete "default" nm, Call.deploymentsDelete "default" nm]) ∧
    (∀ code, Cancel st [some (false, code)] nm =
      (.error (.api (.injected false code)), st, [Call.servicesDelete "default" nm])) ∧
    (∀ code, (Cancel st [none, some (false, code)] nm).1 =
        .error (.api (.injected false code)) ∧
      (Cancel st [none, some (false, code)] nm).2.2 =
        [Call.servicesDelete "default" nm, Call.deploymentsDelete "default" nm]) := by
  have h1 := Cancel_store st nm hn
  have h2 := Cancel_store (Cancel st [] nm).2.1 nm hn
  refine ⟨by rw [h1], by rw [h1], by rw [h2], by rw [h1], by rw [h1], ?_, ?_, ?_⟩
  · intro code
    have e1 := apiDeleteService_inj ⟨st, [some (true, code)], []⟩ "default" nm true code [] rfl
    rcases hdp : alistGet st.deployments ("default", nm) with _ | d
    · have e2 := apiDeleteDeployment_store_absent
        ⟨st, [], [Call.servicesDelete "default" nm]⟩ "default" nm rfl hdp
      constructor <;> simp [Cancel, hn, e1, e2, K8sErr.IsNotFound]
    · have e2 := apiDeleteDeployment_store_present
        ⟨st, [], [Call.servicesDelete "default" nm]⟩ "default" nm d rfl hdp
      constructor <;> simp [Cancel, hn, e1, e2, K8sErr.IsNotFound]
  · intro code
    have e1 := apiDeleteService_inj ⟨st, [some (false, code)], []⟩ "default" nm false code [] rfl
    simp [Cancel, hn, e1, K8sErr.IsNotFound]
  · intro code
    rcases hsv : alistGet st.services ("default", nm) with _ | v <;>
      constructor <;>
      simp [Cancel, hn, apiDeleteService, apiDeleteDeployment, takeOutcome, hsv,
            K8sErr.IsNotFound]

/-- C5 witness: Cancel on an empty cluster returns no error, issues both
deletions in order, and a repeated Cancel still succeeds. -/
theorem C5_cancel_semantics_witness :
    ("web" : String) ≠ "" ∧
    (Cancel ⟨[], []⟩ [] "web").1 = .ok () ∧
    (Cancel ⟨[], []⟩ [] "web").2.2 =
      [Call.servicesDelete "default" "web", Call.deploymentsDelete "default" "web"] ∧
    (Cancel (Cancel ⟨[], []⟩ [] "web").2.1 [] "web").1 = .ok () := by
  have h := C5_cancel_semantics ⟨[], []⟩ "web" (by decide)
  exact ⟨by decide, h.2.1, h.1, h.2.2.1⟩

/-- C7: for every call to Run with an empty image, an empty name or a
nil runtime config, and for every call to Cancel with an empty name, an
InvalidArgument-class error is returned with an empty call trace and the
cluster state untouched — validation fails before any remote call. -/
theorem C7_validation_fails_fast (st : Cluster) (sched : List Outcome)
    (pods : Nat → PodsResponse) (fuel : Nat) (image nm : String) (config : Option Runtime) :
    ((image = "" ∨ nm = "" ∨ config = none) →
      (∃ e, (Run st sched pods fuel image nm config).result = some (.error e) ∧
        (e = .errEmptyImageName ∨ e = .errEmptyContainerName ∨ e = .errNilRuntimeConfig)) ∧
      (Run st sched pods fuel image nm config).trace = [] ∧
      (Run st sched pods fuel image nm config).cluster = st) ∧
    ((Cancel st sched "").1 = .error .errEmptyContainerName ∧
     (Cancel st sched "").2.1 = st ∧ (Cancel st sched "").2.2 = []) := by
  constructor
  · intro h
    by_cases hi : image = ""
    · refine ⟨⟨.errEmptyImageName, ?_, Or.inl rfl⟩, ?_, ?_⟩ <;> simp [Run, hi]
    by_cases hn : nm = ""
    · refine ⟨⟨.errEmptyContainerName, ?_, Or.inr (Or.inl rfl)⟩, ?_, ?_⟩ <;> simp [Run, hi, hn]
    · have hc : config = none := by
        rcases h with h | h | h
        exacts [absurd h hi, absurd h hn, h]
      subst hc
      refine ⟨⟨.errNilRuntimeConfig, ?_, Or.inr (Or.inr rfl)⟩, ?_, ?_⟩ <;> simp [Run, hi, hn]
  · refine ⟨?_, ?_, ?_⟩ <;> simp [Cancel]

/-- C7 witness: Run with an empty image makes no remote call, and Cancel
with an empty name makes no remote call. -/
theorem C7_validation_fails_fast_witness :
    (("" : String) = "" ∨ ("web" : String) = "" ∨
      (some { Executor := "", Replicas := 1, Ports := [], PublicAddress := false } :
        Option Runtime) = none) ∧
    (Run ⟨[], []⟩ [] (instantPods "web") 1 "" "web"
      (some { Executor := "", Replicas := 1, Ports := [], PublicAddress := false })).trace = [] ∧
    (Cancel ⟨[], []⟩ [] "").2.2 = [] := by
  refine ⟨Or.inl rfl, ?_, ?_⟩
  · exact ((C7_validation_fails_fast ⟨[], []⟩ [] (instantPods "web") 1 "" "web"
      (some { Executor := "", Replicas := 1, Ports := [], PublicAddress := false })).1
        (Or.inl rfl)).2.1
  · exact (C7_validation_fails_fast ⟨[], []⟩ [] (instantPods "web") 1 "" "web"
      (some { Executor := "", Replicas := 1, Ports := [], PublicAddress := false })).2.2.2

/-- C6: after the Deployment is created or updated, Run enters the
readiness loop over pods labeled app=name: (i) while no query has
reported a running pod the loop is still spinning, for every fuel bound
(no bound on retries); (ii) when the first success is at query k the
loop returns at k having slept exactly k times, every sleep of the fixed
1-second interval; (iii) a query error is swallowed — it behaves exactly
like an empty pod list; (iv) Run returns success only after a pod
reporting a running container has been observed by some query. -/
theorem C6_readiness_loop (pods : Nat → PodsResponse) (nm : String) (fuel : Nat) :
    ((∀ j, j < fuel → (findPod (pods j) nm).toOption = none) →
      (waitLoop pods nm 0 fuel).1 = none) ∧
    (∀ k, k < fuel → (findPod (pods k) nm).toOption.isSome →
      (∀ j, j < k → (findPod (pods j) nm).toOption = none) →
      (waitLoop pods nm 0 fuel).1 = some k ∧
      (waitLoop pods nm 0 fuel).2.countP Call.isSleep = k ∧
      (∀ c ∈ (waitLoop pods nm 0 fuel).2, c.isSleep = true → c = Call.sleep 1)) ∧
    (∀ e, nm ≠ "" →
      (findPod (.err e) nm).toOption = none ∧ (findPod (.ok []) nm).toOption = none) ∧
    (∀ st sched image cfg,
      (Run st sched pods fuel image nm (some cfg)).result = some (.ok ()) →
      ∃ k, k < fuel ∧ (findPod (pods k) nm).toOption.isSome) := by
  refine ⟨?_, ?_, ?_, ?_⟩
  · intro h
    exact waitLoop_none pods nm fuel 0 (fun j hj => by simpa using h j hj)
  · intro k hk hsome hbefore
    have h := waitLoop_some pods nm fuel 0 k (Nat.zero_le k) (by omega) hsome
      (fun j _ hj => hbefore j hj)
    refine ⟨h.1, by simpa using h.2, ?_⟩
    intro c hc hsleep
    rcases waitLoop_trace pods nm fuel 0 c hc with h1 | h1
    · rw [h1] at hsleep
      simp [podsListCall, Call.isSleep] at hsleep
    · exact h1
  · intro e hn
    constructor <;> simp [findPod, hn, Except.toOption, selectRunning]
  · intro st sched image cfg h
    by_cases hi : image = ""
    · simp [Run, hi] at h
    by_cases hn : nm = ""
    · simp [Run, hi, hn] at h
    by_cases hp : cfg.Ports.length = 0
    · have h2 : (createDeployment pods fuel ⟨st, sched, []⟩ image nm cfg true).1 =
          some (.ok ()) := by
        simpa [Run, hi, hn, hp] using h
      obtain ⟨k, hk⟩ := createDeployment_ok_wait pods fuel ⟨st, sched, []⟩ image nm cfg h2
      obtain ⟨_, hlt, hs⟩ := waitLoop_some_inv pods nm fuel 0 k hk
      exact ⟨k, by omega, hs⟩
    · rcases hcs : createService ⟨st, sched, []⟩ image nm cfg with ⟨r, s1⟩
      rcases r with e | u
      · simp [Run, hi, hn, hp, hcs] at h
      · have h2 : (createDeployment pods fuel s1 image nm cfg true).1 = some (.ok ()) := by
          simpa [Run, hi, hn, hp, hcs] using h
        obtain ⟨k, hk⟩ := createDeployment_ok_wait pods fuel s1 image nm cfg h2
        obtain ⟨_, hlt, hs⟩ := waitLoop_some_inv pods nm fuel 0 k hk
        exact ⟨k, by omega, hs⟩

/-- C6 witness: with the first three pod queries empty and the fourth
reporting a running pod, the loop returns at query 3 after 3 sleeps. -/
theorem C6_readiness_loop_witness :
    (waitLoop (fun i => if i < 3 then PodsResponse.ok [] else instantPods "web" i)
        "web" 0 10).1 = some 3 ∧
    (waitLoop (fun i => if i < 3 then PodsResponse.ok [] else instantPods "web" i)
        "web" 0 10).2.countP Call.isSleep = 3 := by
  have hb : ∀ j, j < 3 →
      (findPod ((fun i => if i < 3 then PodsResponse.ok [] else instantPods "web" i) j)
        "web").toOption = none := by
    intro j hj
    have hj3 : j = 0 ∨ j = 1 ∨ j = 2 := by omega
    rcases hj3 with rfl | rfl | rfl <;> decide
  have h := (C6_readiness_loop
      (fun i => if i < 3 then PodsResponse.ok [] else instantPods "web" i) "web" 10).2.1
    3 (by omega) (by decide) hb
  exact ⟨h.1, h.2.1⟩

/-- C8: when the pod query succeeds but reports no running pod, Logs
returns the NotFound-class errNoRunningContainer without any log-stream
call; when a running pod is found a follow-mode stream is opened for it
in its namespace; a stream-open failure is propagated as-is (no stream
handle to release); with the stream open, bytes are copied until
end-of-data (success) or I/O error (propagated), and the stream handle
is released on both of those exit paths. -/
theorem C8_logs (env : LogsEnv) (nm : String) (hn : nm ≠ "") :
    (∀ items, env.podsResp = .ok items → selectRunning items = none →
      Logs env nm = (.error .errNoRunningContainer, [podsListCall nm])) ∧
    (∀ items p, env.podsResp = .ok items → selectRunning items = some p →
      Call.getLogs p.Namespace p.Name true ∈ (Logs env nm).2) ∧
    (∀ items p e, env.podsResp = .ok items → selectRunning items = some p →
      env.streamErr = some e →
      (Logs env nm).1 = .error (.api e) ∧ Call.closeStream ∉ (Logs env nm).2) ∧
    (∀ items p, env.podsResp = .ok items → selectRunning items = some p →
      env.streamErr = none →
      Call.closeStream ∈ (Logs env nm).2 ∧
      (Logs env nm).1 = (match env.copyRes with
                         | .ok _ => .ok ()
                         | .error code => .error (.ioErr code))) := by
  refine ⟨?_, ?_, ?_, ?_⟩
  · intro items h1 h2
    rcases items with _ | ⟨p0, rest⟩
    · simp [Logs, findPod, h1, hn]
    · simp [Logs, findPod, h1, hn, h2]
  · intro items p h1 h2
    rcases items with _ | ⟨p0, rest⟩
    · simp [selectRunning] at h2
    · rcases hse : env.streamErr with _ | e2 <;> rcases hcr : env.copyRes with a | b <;>
        simp [Logs, findPod, h1, h2, hn, hse, hcr]
  · intro items p e h1 h2 hse
    rcases items with _ | ⟨p0, rest⟩
    · simp [selectRunning] at h2
    · constructor <;> simp [Logs, findPod, h1, h2, hn, hse, podsListCall]
  · intro items p h1 h2 hse
    rcases items with _ | ⟨p0, rest⟩
    · simp [selectRunning] at h2
    · rcases hcr : env.copyRes with a | b <;>
        constructor <;> simp [Logs, findPod, h1, h2, hn, hse, hcr]

/-- C8 witness: Logs on a name whose query reports no pod returns the
NotFound-class error after only the pod-list call. -/
theorem C8_logs_witness :
    ("web" : String) ≠ "" ∧
    Logs ⟨PodsResponse.ok [], none, Except.ok 0⟩ "web" =
      (.error .errNoRunningContainer, [podsListCall "web"]) :=
  ⟨by decide, (C8_logs ⟨PodsResponse.ok [], none, Except.ok 0⟩ "web" (by decide)).1 [] rfl rfl⟩

/-- C9: for every RuntimeSpec with non-empty ports (Service absent, store
semantics), the Service Run creates and stores is `mkService`: it has
exactly one ServicePort per ports entry, the i-th named by its ordinal
index i with port and target port equal to the i-th ports entry over
TCP, its selector is app=name, and its type is LoadBalancer exactly when
publicAddress is set, the cluster-internal default otherwise. -/
theorem C9_service_shape (st : Cluster) (pods : Nat → PodsResponse) (fuel : Nat)
    (image nm : String) (cfg : Runtime)
    (hi : image ≠ "") (hn : nm ≠ "") (hp : cfg.Ports ≠ [])
    (ha : alistGet st.services ("default", nm) = none) :
    alistGet (Run st [] pods fuel image nm (some cfg)).cluster.services ("default", nm) =
      some (mkService nm cfg) ∧
    (mkService nm cfg).Ports.length = cfg.Ports.length ∧
    (∀ i, (mkService nm cfg).Ports.get? i =
      (cfg.Ports.get? i).map (fun p =>
        { Name := toString i, Port := p, TargetPort := p, Protocol := "TCP" })) ∧
    (mkService nm cfg).Selector = [("app", nm)] ∧
    (mkService nm cfg).ServiceType = (if cfg.PublicAddress then "LoadBalancer" else "") := by
  have hplen : cfg.Ports.length ≠ 0 := fun h => hp (List.length_eq_zero.mp h)
  have hcs := createService_store_absent ⟨st, [], []⟩ image nm cfg rfl ha
  refine ⟨?_, mkServicePorts_length 0 cfg.Ports, ?_, rfl, rfl⟩
  · have hserv := createDeployment_services pods fuel
      ⟨⟨st.deployments, alistPut st.services ("default", nm) (mkService nm cfg)⟩, [],
        [Call.servicesGet "default" nm, Call.servicesCreate "default" (mkService nm cfg)]⟩
      image nm cfg true
    have hrun : (Run st [] pods fuel image nm (some cfg)).cluster.services =
        alistPut st.services ("default", nm) (mkService nm cfg) := by
      simp only [Run, hi, hn]
      simp [hplen, hcs]
      simpa using hserv
    rw [hrun]
    exact alistGet_put_self _ _ _
  · intro i
    have h := mkServicePorts_get? cfg.Ports 0 i
    simpa [mkService] using h

/-- C9 witness: the spec scenario (name web, port 80, public) stores a
LoadBalancer Service with one TCP port named "0". -/
theorem C9_service_shape_witness :
    alistGet (Run ⟨[], []⟩ [] (instantPods "web") 1 "nginx" "web"
        (some { Executor := "", Replicas := 2, Ports := [80],
                PublicAddress := true })).cluster.services ("default", "web") =
      some (mkService "web"
        { Executor := "", Replicas := 2, Ports := [80], PublicAddress := true }) ∧
    (mkService "web"
        { Executor := "", Replicas := 2, Ports := [80], PublicAddress := true }).ServiceType =
      "LoadBalancer" := by
  have h := C9_service_shape ⟨[], []⟩ (instantPods "web") 1 "nginx" "web"
    { Executor := "", Replicas := 2, Ports := [80], PublicAddress := true }
    (by decide) (by decide) (by decide) rfl
  exact ⟨h.1, by simpa using h.2.2.2.2⟩

/-- C10: every Deployment/Service CRUD and pod-list call issued by Run,
Cancel and Logs targets the fixed namespace "default" (calls without a
CRUD namespace are the sleeps, the log stream and its close), and since
no operation reads a KubernetesExecuterConfig, running with any two
configured namespace values is the very same computation. -/
theorem C10_default_namespace_only :
    (∀ st sched pods fuel image nm config,
      ∀ c ∈ (Run st sched pods fuel image nm config).trace,
        c.crudNs = none ∨ c.crudNs = some "default") ∧
    (∀ st sched nm, ∀ c ∈ (Cancel st sched nm).2.2, c.crudNs = some "default") ∧
    (∀ env nm, ∀ c ∈ (Logs env nm).2, c.crudNs = none ∨ c.crudNs = some "default") ∧
    (∀ cfgA cfgB st sched pods fuel image nm config,
      RunWithConfig cfgA st sched pods fuel image nm config =
        RunWithConfig cfgB st sched pods fuel image nm config) := by
  refine ⟨?_, ?_, ?_, fun _ _ _ _ _ _ _ _ _ => rfl⟩
  · intro st sched pods fuel image nm config c hc
    by_cases hi : image = ""
    · simp [Run, hi] at hc
    by_cases hn : nm = ""
    · simp [Run, hi, hn] at hc
    rcases config with _ | cfg
    · simp [Run, hi, hn] at hc
    obtain ⟨ts1, ts2, htr, h1, h2, _, _⟩ :=
      Run_trace_decomp st sched pods fuel image nm cfg hi hn
    rw [htr] at hc
    rcases List.mem_append.mp hc with hc | hc
    · exact Or.inr (h1 c hc).2
    · exact (h2 c hc).2
  · intro st sched nm c hc
    rcases Cancel_trace_shape st sched nm c hc with h | h <;> subst h <;> rfl
  · intro env nm c hc
    by_cases hn : nm = ""
    · subst hn
      simp [Logs, findPod] at hc
    rcases hf : findPod env.podsResp nm with e | p
    · simp [Logs, hf, hn] at hc
      subst hc
      exact Or.inr rfl
    · rcases hse : env.streamErr with _ | e2
      · rcases hcr : env.copyRes with a | b <;> simp [Logs, hf, hn, hse, hcr] at hc <;>
          rcases hc with hc | hc | hc <;> subst hc <;> simp [Call.crudNs, podsListCall]
      · simp [Logs, hf, hn, hse] at hc
        rcases hc with hc | hc <;> subst hc <;> simp [Call.crudNs, podsListCall]

/-- C10 witness: the Service deletion Cancel issues targets "default". -/
theorem C10_default_namespace_only_witness :
    (Call.servicesDelete "default" "web").crudNs = some "default" :=
  C10_default_namespace_only.2.1 ⟨[], []⟩ [] "web"
    (Call.servicesDelete "default" "web") (by decide)

end Metaparticle
